import Mathlib

/-!
Verification of the asynchronous log-forwarding pipeline of python-log-async.

The Lean definitions below are a shallow embedding of the Python sources:
  * `log_async/stats.py`    — `LogStats` and its counter/gauge methods
  * `log_async/memory_cache.py` — `MemoryCache` (volatile buffer)
  * `log_async/database.py` — `DatabaseCache` (durable buffer over SQLite)
  * `log_async/worker.py`   — `LogProcessingWorker` flush logic
  * `log_async/handler.py`  — `AsynchronousLogHandler.emit`
  * `log_async/constants.py` — the `Constants` thresholds

Python dictionaries are embedded as insertion-ordered association lists
(unique keys), the SQLite `event` table as an ordered list of rows, and
Python exceptions as `Except` results.  Calls to externally supplied
functions (`overflow_fn`, the log-warning sink, `Transport.send`) are
recorded as explicit trace components of the results so that "invoked
exactly once" style properties are statable.
-/

/-- Embeds the Python exceptions relevant to the pipeline: `KeyboardInterrupt`
and `SystemExit` (re-raised by `AsynchronousLogHandler.emit`), the
`AttributeError` raised by a failed attribute lookup, and a catch-all for any
other `Exception`. -/
inductive PyExc where
  | keyboardInterrupt
  | systemExit
  | attributeError
  | other
deriving DecidableEq, Repr, Fintype

/-- Embeds `stats.py` `LogStats`: four named stat values created by
`LogStats.__init__` — the counters `events_total`, `discarded_total`,
`sent_total` and the gauge `buffered_events`.  The fallback `Value` class
stores a plain Python integer starting at 0, so each field is an `Int`.
(The durable variant's `DatabaseStats` adds a file-size gauge and a lock
counter; no claim observes them, so they are not carried here.) -/
structure LogStats where
  events_total : Int
  discarded_total : Int
  buffered_events : Int
  sent_total : Int
deriving DecidableEq, Repr

/-- Embeds `LogStats.__init__`: all values start at 0. -/
def LogStats.init : LogStats :=
  { events_total := 0, discarded_total := 0, buffered_events := 0, sent_total := 0 }

/-- Embeds `LogStats.event(n)`: `self._events.inc(n)`. -/
def LogStats.event (s : LogStats) (n : Nat) : LogStats :=
  { s with events_total := s.events_total + n }

/-- Embeds `LogStats.send(n)`: `self._sent.inc(n)`. -/
def LogStats.send (s : LogStats) (n : Nat) : LogStats :=
  { s with sent_total := s.sent_total + n }

/-- Embeds `LogStats.discard(n)`: `self._discarded.inc(n)`. -/
def LogStats.discard (s : LogStats) (n : Nat) : LogStats :=
  { s with discarded_total := s.discarded_total + n }

/-- Embeds `LogStats.buffer(n)`: `self._buffered.inc(n)`. -/
def LogStats.buffer (s : LogStats) (n : Nat) : LogStats :=
  { s with buffered_events := s.buffered_events + n }

/-- Embeds `LogStats.unbuffer(n)`:
`self._buffered.dec(min(self._buffered.val()[1], n))` — the decrement is
clamped to the gauge's current value. -/
def LogStats.unbuffer (s : LogStats) (n : Nat) : LogStats :=
  { s with buffered_events := s.buffered_events - min s.buffered_events (n : Int) }

/-- One call to a `LogStats` mutator; every call site in the repository
passes a natural number (a batch length or the literal 1). -/
inductive StatsOp where
  | event (n : Nat)
  | send (n : Nat)
  | discard (n : Nat)
  | buffer (n : Nat)
  | unbuffer (n : Nat)
deriving DecidableEq, Repr

/-- Applies one `LogStats` method call. -/
def LogStats.applyOp (s : LogStats) (op : StatsOp) : LogStats :=
  match op with
  | .event n => s.event n
  | .send n => s.send n
  | .discard n => s.discard n
  | .buffer n => s.buffer n
  | .unbuffer n => s.unbuffer n

/-- Applies a sequence of `LogStats` method calls, first one first. -/
def LogStats.applyOps (s : LogStats) (ops : List StatsOp) : LogStats :=
  ops.foldl LogStats.applyOp s

/-- Embeds one value of the `MemoryCache` dictionary (`memory_cache.py`
`add_event`): `{"event_text": ..., "pending_delete": ..., "entry_date": ...,
"id": ...}`.  The `uuid.uuid4()` key is embedded as a `Nat` drawn from a
fresh-id counter (only its uniqueness is ever used); `entry_date` is dropped
since no claim under verification involves TTL expiry. -/
structure MemEvent where
  id : Nat
  event_text : String
  pending_delete : Bool
deriving DecidableEq, Repr

/-- Embeds `memory_cache.py` `MemoryCache`.  The backing dictionary is an
insertion-ordered association list with unique `id` keys; `nextId` is the
fresh-id source standing in for `uuid.uuid4()`.  The `overflow_fn` is passed
to `add_event` at the call instead of being stored, so that states stay
decidably comparable. -/
structure MemoryCache where
  cache : List MemEvent
  event_ttl : Option Nat
  max_size : Option Nat
  stats : LogStats
  nextId : Nat
deriving DecidableEq, Repr

/-- Embeds `MemoryCache.__init__(cache={}, event_ttl, max_size, ...)` for an
initially empty dictionary. -/
def MemoryCache.init (event_ttl : Option Nat) (max_size : Option Nat) : MemoryCache :=
  { cache := [], event_ttl := event_ttl, max_size := max_size,
    stats := LogStats.init, nextId := 0 }

/-- Embeds `MemoryCache.add_event(event)`.  `ofn` is the configured
`overflow_fn` (`none` embeds Python `None`).  The second component of the
result is the list of events passed to `overflow_fn`, recording its
invocations; the function's own result is discarded (`except Exception:
pass`). -/
def MemoryCache.add_event (c : MemoryCache) (ofn : Option (String → Except PyExc Unit))
    (event : String) : MemoryCache × List String :=
  let c := { c with stats := c.stats.event 1 }
  match c.max_size with
  | some m =>
    if c.cache.length ≥ m then
      let c := { c with stats := c.stats.discard 1 }
      match ofn with
      | some f =>
        let _ := f event
        (c, [event])
      | none => (c, [])
    else
      ({ c with
          cache := c.cache ++ [{ id := c.nextId, event_text := event, pending_delete := false }],
          nextId := c.nextId + 1,
          stats := c.stats.buffer 1 }, [])
  | none =>
      ({ c with
          cache := c.cache ++ [{ id := c.nextId, event_text := event, pending_delete := false }],
          nextId := c.nextId + 1,
          stats := c.stats.buffer 1 }, [])

/-- Embeds `MemoryCache.get_queued_events()`: iterate the dictionary in
insertion order, collect every event whose `pending_delete` is false and set
its flag; the returned dictionaries are the (now flagged) cache entries.
Finally `self._stats.unbuffer(len(events))`. -/
def MemoryCache.get_queued_events (c : MemoryCache) : MemoryCache × List MemEvent :=
  let events := (c.cache.filter (fun e => !e.pending_delete)).map
    (fun e => { e with pending_delete := true })
  let cache := c.cache.map (fun e => { e with pending_delete := true })
  ({ c with cache := cache, stats := c.stats.unbuffer events.length }, events)

/-- Embeds the body of the `for event in events` loop of
`MemoryCache.requeue_queued_events`: look the id up in the dictionary; if
present clear that entry's `pending_delete` and count it, otherwise log a
warning for the id.  Returns (updated dictionary, count, warned ids). -/
def MemoryCache.requeueLoop (cache : List MemEvent) (events : List MemEvent) :
    List MemEvent × Nat × List Nat :=
  match events with
  | [] => (cache, 0, [])
  | e :: rest =>
    if (cache.map MemEvent.id).contains e.id then
      let cache := cache.map (fun x => if x.id = e.id then { x with pending_delete := false } else x)
      let (cache2, n, warned) := MemoryCache.requeueLoop cache rest
      (cache2, n + 1, warned)
    else
      let (cache2, n, warned) := MemoryCache.requeueLoop cache rest
      (cache2, n, e.id :: warned)

/-- Embeds `MemoryCache.requeue_queued_events(events)`; the second component
is the list of ids warned about (`self.logger.warn(...)` for events not in
the cache).  Ends with `self._stats.buffer(n)`. -/
def MemoryCache.requeue_queued_events (c : MemoryCache) (events : List MemEvent) :
    MemoryCache × List Nat :=
  let (cache, n, warned) := MemoryCache.requeueLoop c.cache events
  ({ c with cache := cache, stats := c.stats.buffer n }, warned)

/-- Embeds the `for event_id in ids_to_delete` loop of
`MemoryCache._delete_events`: pop each id (removing the first entry carrying
it), counting successes and warning on absent ids.
Returns (updated dictionary, count, warned ids). -/
def MemoryCache.deleteLoop (cache : List MemEvent) (ids : List Nat) :
    List MemEvent × Nat × List Nat :=
  match ids with
  | [] => (cache, 0, [])
  | i :: rest =>
    if (cache.map MemEvent.id).contains i then
      let cache := cache.eraseP (fun x => x.id = i)
      let (cache2, n, warned) := MemoryCache.deleteLoop cache rest
      (cache2, n + 1, warned)
    else
      let (cache2, n, warned) := MemoryCache.deleteLoop cache rest
      (cache2, n, i :: warned)

/-- Embeds `MemoryCache._delete_events(ids_to_delete)`; ends with
`self._stats.discard(n)`.  Second component: warned ids. -/
def MemoryCache.delete_events (c : MemoryCache) (ids : List Nat) : MemoryCache × List Nat :=
  let (cache, n, warned) := MemoryCache.deleteLoop c.cache ids
  ({ c with cache := cache, stats := c.stats.discard n }, warned)

/-- Embeds `MemoryCache.delete_queued_events()`: collect the ids of all
entries whose `pending_delete` is set and delete them. -/
def MemoryCache.delete_queued_events (c : MemoryCache) : MemoryCache × List Nat :=
  c.delete_events ((c.cache.filter (fun e => e.pending_delete)).map MemEvent.id)

/-- Embeds the thresholds of `constants.py` used by the claims under
verification.  `QUEUED_EVENTS_FLUSH_INTERVAL = 10.0` seconds is a Python
float compared against `timedelta.total_seconds()`; both are embedded as
exact rationals. -/
def QUEUED_EVENTS_FLUSH_INTERVAL : ℚ := 10

/-- Embeds `constants.py` `QUEUED_EVENTS_FLUSH_COUNT = 50`. -/
def QUEUED_EVENTS_FLUSH_COUNT : Nat := 50

/-- Embeds `constants.py` `DATABASE_EVENT_CHUNK_SIZE = 750`. -/
def DATABASE_EVENT_CHUNK_SIZE : Nat := 750

/-- Auxiliary recursion for `ichunked`: `acc` is the chunk being built (in
reverse), `k` its remaining capacity, `n` the configured chunk size. -/
def ichunkedGo (n : Nat) : List α → List α → Nat → List (List α)
  | [], acc, _ => if acc.isEmpty then [] else [acc.reverse]
  | x :: xs, acc, 0 => acc.reverse :: ichunkedGo n xs [x] (n - 1)
  | x :: xs, acc, k + 1 => ichunkedGo n xs (x :: acc) k

/-- Modelled from the spec: `utils.ichunked` (the module `log_async/utils.py`
is not part of the provided sources).  Per §4.3.1, "Bulk updates must chunk
IDs to respect the underlying engine's per-statement variable limit (≤750 IDs
per statement)": the list is split into consecutive chunks of at most `n`
elements whose concatenation is the original list. -/
def ichunked (l : List α) (n : Nat) : List (List α) :=
  ichunkedGo n l [] n

/-- Embeds one row of the SQLite `event` table of `database.py`
(`DATABASE_SCHEMA_STATEMENTS`): `event_id INTEGER PRIMARY KEY AUTOINCREMENT`,
`event_text TEXT`, `pending_delete INTEGER` (used as a boolean).
`entry_date` is dropped since no claim under verification involves TTL
expiry. -/
structure DbRow where
  event_id : Nat
  event_text : String
  pending_delete : Bool
deriving DecidableEq, Repr

/-- Applies the per-chunk statements of `DatabaseCache._bulk_update_events`:
for each chunk, `UPDATE event SET pending_delete=? WHERE event_id IN (chunk)`
is executed and `cursor.rowcount` (the number of rows matched by the WHERE
clause, as SQLite counts an updated row even when the stored value is
unchanged) is accumulated. -/
def applyChunks (pd : Bool) (table : List DbRow) : List (List Nat) → List DbRow × Nat
  | [] => (table, 0)
  | c :: cs =>
    let matched := (table.filter (fun r => c.contains r.event_id)).length
    let table2 := table.map
      (fun r => if c.contains r.event_id then { r with pending_delete := pd } else r)
    let res := applyChunks pd table2 cs
    (res.1, matched + res.2)

/-- Embeds `DatabaseCache._bulk_update_events(cursor, events, statement)` for
the two statements used in the source (`SET pending_delete=1` from
`get_queued_events`, `SET pending_delete=0` from `requeue_queued_events`):
the event ids are split by `ichunked` into chunks of
`DATABASE_EVENT_CHUNK_SIZE` and each chunk is applied; returns the updated
table and `numRows`, the accumulated rowcount. -/
def bulk_update_events (pd : Bool) (table : List DbRow) (event_ids : List Nat) :
    List DbRow × Nat :=
  applyChunks pd table (ichunked event_ids DATABASE_EVENT_CHUNK_SIZE)

/-- Embeds `database.py` `DatabaseCache`.  `table` is the persistent SQLite
`event` table (ordered by `event_id`, which AUTOINCREMENT keeps unique and
increasing); `next_id` is the next AUTOINCREMENT value.  As in the volatile
variant, `overflow_fn` would be passed at the call — but see `add_event`. -/
structure DatabaseCache where
  table : List DbRow
  next_id : Nat
  event_ttl : Option Nat
  max_size : Option Nat
  stats : LogStats
deriving DecidableEq, Repr

/-- Embeds constructing a `DatabaseCache` at process start over an existing
database file holding `rows`: `__init__` stores the configuration and fresh
stats, and the first `_connect` runs `_initialize_schema`, whose three
statements (`CREATE TABLE IF NOT EXISTS`, two `CREATE INDEX IF NOT EXISTS`)
create missing objects only and leave existing rows — in particular their
`pending_delete` flags — untouched.  No statement in `database.py` updates
`pending_delete` on open. -/
def DatabaseCache.openDb (rows : List DbRow) (next_id : Nat)
    (event_ttl : Option Nat) (max_size : Option Nat) : DatabaseCache :=
  { table := rows, next_id := next_id, event_ttl := event_ttl,
    max_size := max_size, stats := LogStats.init }

/-- Embeds `DatabaseCache.add_event(event)`.  After `self._stats.event(1)`,
the guard `if self._max_size is not None and self._stats.totalBuffered() >=
self._max_size` evaluates `self._stats.totalBuffered`; `stats.py` defines no
attribute `totalBuffered` on `LogStats`/`DatabaseStats` (its methods are
`event`, `send`, `discard`, `buffer`, `unbuffer`), so whenever `max_size` is
set the lookup raises `AttributeError` before anything is inserted or
discarded (the stats mutation on `self` survives the exception).  With
`max_size` unset the row is inserted with `pending_delete = 0` and the
buffered gauge incremented. -/
def DatabaseCache.add_event (c : DatabaseCache) (event : String) :
    Except PyExc DatabaseCache :=
  let c := { c with stats := c.stats.event 1 }
  match c.max_size with
  | some _ => Except.error PyExc.attributeError
  | none =>
    Except.ok { c with
      table := c.table ++ [{ event_id := c.next_id, event_text := event, pending_delete := false }],
      next_id := c.next_id + 1,
      stats := c.stats.buffer 1 }

/-- Embeds `DatabaseCache.get_queued_events()`: one transaction selects
`event_id, event_text` of every row with `pending_delete = 0` (in rowid
order) and flips those rows' `pending_delete` to 1 via
`_bulk_update_events`; then `self._stats.unbuffer(len(events))`. -/
def DatabaseCache.get_queued_events (c : DatabaseCache) :
    DatabaseCache × List (Nat × String) :=
  let events := (c.table.filter (fun r => !r.pending_delete)).map
    (fun r => (r.event_id, r.event_text))
  let upd := bulk_update_events true c.table (events.map Prod.fst)
  ({ c with table := upd.1, stats := c.stats.unbuffer events.length }, events)

/-- Embeds `DatabaseCache.requeue_queued_events(events)`: `UPDATE event SET
pending_delete=0 WHERE event_id IN (...)` over the given events' ids via
`_bulk_update_events`; if the accumulated rowcount `n` is positive,
`self._stats.buffer(n)`.  Unlike the volatile variant, no warning is logged
for unknown ids — they simply match no row. -/
def DatabaseCache.requeue_queued_events (c : DatabaseCache)
    (events : List (Nat × String)) : DatabaseCache :=
  let upd := bulk_update_events false c.table (events.map Prod.fst)
  { c with table := upd.1,
           stats := if upd.2 > 0 then c.stats.buffer upd.2 else c.stats }

/-- Embeds `DatabaseCache.delete_queued_events()`: `DELETE FROM event WHERE
pending_delete=1`.  No stats are touched. -/
def DatabaseCache.delete_queued_events (c : DatabaseCache) : DatabaseCache :=
  { c with table := c.table.filter (fun r => !r.pending_delete) }

/-- Embeds `LogProcessingWorker._queued_event_interval_reached()`:
`(datetime.now() - self._last_event_flush_date).total_seconds() >
constants.QUEUED_EVENTS_FLUSH_INTERVAL` — a strict comparison.  `elapsed` is
the seconds since the last flush-counter reset. -/
def queued_event_interval_reached (elapsed : ℚ) : Bool :=
  elapsed > QUEUED_EVENTS_FLUSH_INTERVAL

/-- Embeds `LogProcessingWorker._queued_event_count_reached()`:
`self._non_flushed_event_count > constants.QUEUED_EVENTS_FLUSH_COUNT` — a
strict comparison. -/
def queued_event_count_reached (non_flushed_event_count : Nat) : Bool :=
  non_flushed_event_count > QUEUED_EVENTS_FLUSH_COUNT

/-- Embeds the guard opening `LogProcessingWorker._flush_queued_events`:
the body is aborted unless `force` or one of the two thresholds holds. -/
def flush_condition (force : Bool) (elapsed : ℚ) (non_flushed_event_count : Nat) : Bool :=
  force || queued_event_interval_reached elapsed ||
    queued_event_count_reached non_flushed_event_count

/-- Embeds the mutable worker fields that the flush path touches:
the handler-provided buffer (the volatile variant is used here; its
operations never raise, matching the absence of `DatabaseLockedError` on
this configuration), the `WorkerStats` counters shared with `LogStats`, and
`self._non_flushed_event_count`.  `_last_event_flush_date` is external
wall-clock state and enters as the `elapsed` argument below. -/
structure LogProcessingWorker where
  buffer : MemoryCache
  stats : LogStats
  non_flushed_event_count : Nat
deriving DecidableEq, Repr

/-- Embeds `LogProcessingWorker._send_events(events)`:
`self._transport.send(events)` (its outcome supplied as `transportOk`)
followed by `self._stats.sent(len(events))`.  `WorkerStats` inherits
`LogStats`, whose methods are `event`, `send`, `discard`, `buffer`,
`unbuffer`; neither class defines an attribute `sent`, so after a successful
transport send the attribute lookup raises `AttributeError` and `sent_total`
is never incremented.  A transport failure propagates as a generic
exception. -/
def send_events (stats : LogStats) (events : List String) (transportOk : Bool) :
    Except PyExc LogStats :=
  if transportOk then Except.error PyExc.attributeError
  else Except.error PyExc.other

/-- Embeds `LogProcessingWorker._flush_queued_events(force)` over the
volatile buffer: abort unless forced or a threshold is met; fetch the queued
events; if any, extract the payloads and `_send_events` them — on any
exception requeue the batch, otherwise delete the in-flight events and reset
the flush counters.  (`get_queued_events` on the volatile buffer cannot
raise, so the `DatabaseLockedError`/`Exception` guards around the fetch are
not exercised.) -/
def flush_queued_events (w : LogProcessingWorker) (force : Bool) (elapsed : ℚ)
    (transportOk : Bool) : LogProcessingWorker :=
  if !(flush_condition force elapsed w.non_flushed_event_count) then w
  else
    let fetched := w.buffer.get_queued_events
    let w := { w with buffer := fetched.1 }
    let queued_events := fetched.2
    if queued_events.isEmpty then w
    else
      match send_events w.stats (queued_events.map MemEvent.event_text) transportOk with
      | Except.error _ =>
        { w with buffer := (w.buffer.requeue_queued_events queued_events).1 }
      | Except.ok stats2 =>
        { w with stats := stats2,
                 buffer := (w.buffer.delete_queued_events).1,
                 non_flushed_event_count := 0 }

/-- Embeds the outcome of one `AsynchronousLogHandler.emit(record)` call. -/
inductive EmitOutcome where
  | returned
  | handledError
  | raised (e : PyExc)
deriving DecidableEq, Repr

/-- Embeds `AsynchronousLogHandler.emit(record)`.  The three argument slots
give the exception (if any) raised by the three calls `emit` makes:
`self._start_worker_thread()`, `self._format_record(record)` and
`enqueue_event(data)`.  `_start_worker_thread` runs before the
`try` block, so an exception it raises propagates; inside the `try`,
`KeyboardInterrupt`/`SystemExit` are re-raised and any other `Exception`
leads to `self.handleError(record)`. -/
def AsynchronousLogHandler.emit (enable : Bool) (startWorker : Option PyExc)
    (formatRecord : Option PyExc) (enqueueEvent : Option PyExc) : EmitOutcome :=
  if !enable then EmitOutcome.returned
  else
    match startWorker with
    | some e => EmitOutcome.raised e
    | none =>
      match formatRecord with
      | some PyExc.keyboardInterrupt => EmitOutcome.raised PyExc.keyboardInterrupt
      | some PyExc.systemExit => EmitOutcome.raised PyExc.systemExit
      | some _ => EmitOutcome.handledError
      | none =>
        match enqueueEvent with
        | some PyExc.keyboardInterrupt => EmitOutcome.raised PyExc.keyboardInterrupt
        | some PyExc.systemExit => EmitOutcome.raised PyExc.systemExit
        | some _ => EmitOutcome.handledError
        | none => EmitOutcome.returned


/-- Abbreviation for the row transformation a bulk `UPDATE ... WHERE event_id
IN (ids)` performs on a single row. -/
def updRow (pd : Bool) (ids : List Nat) (r : DbRow) : DbRow :=
  if ids.contains r.event_id then { r with pending_delete := pd } else r

/-- An updated row keeps its id. -/
theorem updRow_event_id (pd : Bool) (ids : List Nat) (r : DbRow) :
    (updRow pd ids r).event_id = r.event_id := by
  by_cases h : r.event_id ∈ ids <;> simp [updRow, List.elem_iff, h]

/-- An updated row keeps its payload. -/
theorem updRow_event_text (pd : Bool) (ids : List Nat) (r : DbRow) :
    (updRow pd ids r).event_text = r.event_text := by
  by_cases h : r.event_id ∈ ids <;> simp [updRow, List.elem_iff, h]

/-- Updating with two id lists in sequence is updating with their
concatenation. -/
theorem updRow_comp (pd : Bool) (c j : List Nat) (r : DbRow) :
    updRow pd j (updRow pd c r) = updRow pd (c ++ j) r := by
  unfold updRow
  by_cases hc : r.event_id ∈ c <;> by_cases hj : r.event_id ∈ j <;>
    simp [List.elem_iff, hc, hj]

/-- Concatenating the chunks produced by `ichunkedGo` recovers the pending
chunk followed by the remaining input. -/
theorem ichunkedGo_join (n : Nat) (xs : List α) :
    ∀ (acc : List α) (k : Nat), (ichunkedGo n xs acc k).flatten = acc.reverse ++ xs := by
  induction xs with
  | nil =>
    intro acc k
    cases acc <;> simp [ichunkedGo]
  | cons x xs ih =>
    intro acc k
    cases k with
    | zero => simp [ichunkedGo, ih]
    | succ k => simp [ichunkedGo, ih]

/-- Concatenating the chunks of `ichunked` recovers the original list. -/
theorem ichunked_join (l : List α) (n : Nat) : (ichunked l n).flatten = l := by
  simp [ichunked, ichunkedGo_join]

/-- The table produced by `applyChunks` updates exactly the rows whose id
occurs in some chunk, i.e. in the concatenation of the chunks. -/
theorem applyChunks_fst (pd : Bool) (cs : List (List Nat)) :
    ∀ table : List DbRow,
      (applyChunks pd table cs).1 = table.map (updRow pd cs.flatten) := by
  induction cs with
  | nil =>
    intro table
    have hid : updRow pd ([] : List Nat) = id := by
      funext r
      simp [updRow]
    simp [applyChunks, hid]
  | cons c cs ih =>
    intro table
    have hfc : (fun r : DbRow =>
        if c.contains r.event_id then { r with pending_delete := pd } else r) = updRow pd c :=
      rfl
    simp only [applyChunks, hfc, ih, List.map_map, List.flatten_cons]
    refine List.map_congr_left ?_
    intro r _
    exact updRow_comp pd c cs.flatten r

/-- Counting helper: a `countP` of a disjunction of pointwise-exclusive
predicates splits into a sum. -/
theorem countP_or_of_exclusive (l : List DbRow) (p q : DbRow → Bool)
    (h : ∀ r, ¬(p r = true ∧ q r = true)) :
    l.countP (fun r => p r || q r) = l.countP p + l.countP q := by
  induction l with
  | nil => simp
  | cons r l ih =>
    by_cases hp : p r = true
    · have hq : q r = false := Bool.eq_false_iff.mpr (fun h2 => h r ⟨hp, h2⟩)
      simp [List.countP_cons, hp, hq, ih]
      omega
    · have hp2 : p r = false := Bool.eq_false_iff.mpr hp
      by_cases hq : q r = true <;>
        simp [List.countP_cons, hp2, hq, ih] <;> omega

/-- When the concatenation of the chunks has no duplicate ids, the rowcount
accumulated by `applyChunks` is the number of table rows whose id occurs in
some chunk. -/
theorem applyChunks_snd (pd : Bool) (cs : List (List Nat)) (hnd : cs.flatten.Nodup) :
    ∀ table : List DbRow, (applyChunks pd table cs).2 =
      table.countP (fun r => cs.flatten.contains r.event_id) := by
  induction cs with
  | nil =>
    intro table
    simp [applyChunks]
  | cons c cs ih =>
    intro table
    have hnd2 : (c ++ cs.flatten).Nodup := by simpa using hnd
    have hj : cs.flatten.Nodup := (List.nodup_append.mp hnd2).2.1
    have hdisj : c.Disjoint cs.flatten := List.disjoint_of_nodup_append hnd2
    have hfc : (fun r : DbRow =>
        if c.contains r.event_id then { r with pending_delete := pd } else r) = updRow pd c :=
      rfl
    simp only [applyChunks, hfc, ih hj, List.countP_map]
    have hcongr : ∀ r ∈ table,
        ((fun r => cs.flatten.contains r.event_id) ∘ updRow pd c) r = true ↔
        (fun r : DbRow => cs.flatten.contains r.event_id) r = true := by
      intro r _
      simp [Function.comp, updRow_event_id]
    rw [List.countP_congr hcongr]
    have hexcl : ∀ r : DbRow,
        ¬((fun r : DbRow => c.contains r.event_id) r = true ∧
          (fun r : DbRow => cs.flatten.contains r.event_id) r = true) := by
      intro r ⟨h1, h2⟩
      exact hdisj (List.elem_iff.mp h1) (List.elem_iff.mp h2)
    have hsum := countP_or_of_exclusive table _ _ hexcl
    have hsplit : ∀ r ∈ table,
        ((c :: cs).flatten.contains r.event_id) = true ↔
        ((fun r : DbRow => c.contains r.event_id || cs.flatten.contains r.event_id) r) = true := by
      intro r _
      simp [List.elem_iff]
    rw [← List.countP_eq_length_filter, List.countP_congr hsplit, hsum]

/-- The table updated by `bulk_update_events` sets `pending_delete` to `pd`
on exactly the rows whose id occurs in the given id list. -/
theorem bulk_update_events_fst (pd : Bool) (table : List DbRow) (ids : List Nat) :
    (bulk_update_events pd table ids).1 = table.map (updRow pd ids) := by
  unfold bulk_update_events
  rw [applyChunks_fst, ichunked_join]

/-- For a duplicate-free id list, the rowcount accumulated by
`bulk_update_events` is the number of table rows whose id is in the list. -/
theorem bulk_update_events_snd (pd : Bool) (table : List DbRow) (ids : List Nat)
    (hnd : ids.Nodup) :
    (bulk_update_events pd table ids).2 =
      table.countP (fun r => ids.contains r.event_id) := by
  unfold bulk_update_events
  have hnd2 : (ichunked ids DATABASE_EVENT_CHUNK_SIZE).flatten.Nodup := by
    rw [ichunked_join]; exact hnd
  rw [applyChunks_snd _ _ hnd2, ichunked_join]

/-- A single `LogStats` method call keeps the buffered gauge non-negative. -/
theorem applyOp_buffered_nonneg (s : LogStats) (op : StatsOp)
    (h : 0 ≤ s.buffered_events) : 0 ≤ (s.applyOp op).buffered_events := by
  cases op with
  | event n => simpa [LogStats.applyOp, LogStats.event] using h
  | send n => simpa [LogStats.applyOp, LogStats.send] using h
  | discard n => simpa [LogStats.applyOp, LogStats.discard] using h
  | buffer n =>
    simp only [LogStats.applyOp, LogStats.buffer]
    positivity
  | unbuffer n =>
    simp only [LogStats.applyOp, LogStats.unbuffer]
    rcases le_total s.buffered_events (n : Int) with hle | hle
    · rw [min_eq_left hle]; omega
    · rw [min_eq_right hle]; omega

/-- A sequence of `LogStats` method calls keeps the buffered gauge
non-negative. -/
theorem applyOps_buffered_nonneg (ops : List StatsOp) :
    ∀ s : LogStats, 0 ≤ s.buffered_events → 0 ≤ (s.applyOps ops).buffered_events := by
  induction ops with
  | nil => intro s h; simpa [LogStats.applyOps] using h
  | cons op ops ih =>
    intro s h
    simpa [LogStats.applyOps, List.foldl_cons] using
      ih (s.applyOp op) (applyOp_buffered_nonneg s op h)

/-- C10: the `buffered_events` gauge never becomes negative under any
sequence of `LogStats` operations starting from a fresh stats object,
because `unbuffer` clamps its decrement to the gauge's current value. -/
theorem C10_buffered_events_gauge_nonneg (ops : List StatsOp) :
    0 ≤ (LogStats.init.applyOps ops).buffered_events :=
  applyOps_buffered_nonneg ops LogStats.init (by simp [LogStats.init])

/-- C6 counterexample: with exactly `QUEUED_EVENTS_FLUSH_INTERVAL` (10)
seconds elapsed and exactly `QUEUED_EVENTS_FLUSH_COUNT` (50) writes since
the last flush — both thresholds reached in the claim's sense — the
non-forced flush is NOT performed: the worker compares strictly, and a
conditional `flush_queued_events` call leaves the worker state (holding one
buffered event) unchanged. -/
theorem C6_counterexample_thresholds_strict :
    (10 : ℚ) ≥ QUEUED_EVENTS_FLUSH_INTERVAL ∧
    (50 : Nat) ≥ QUEUED_EVENTS_FLUSH_COUNT ∧
    flush_condition false 10 50 = false ∧
    flush_queued_events
      { buffer := { cache := [{ id := 0, event_text := "a", pending_delete := false }],
                    event_ttl := none, max_size := none,
                    stats := LogStats.init, nextId := 1 },
        stats := LogStats.init, non_flushed_event_count := 50 } false 10 true =
      { buffer := { cache := [{ id := 0, event_text := "a", pending_delete := false }],
                    event_ttl := none, max_size := none,
                    stats := LogStats.init, nextId := 1 },
        stats := LogStats.init, non_flushed_event_count := 50 } := by
  refine ⟨by norm_num [QUEUED_EVENTS_FLUSH_INTERVAL], by decide, by decide, ?_⟩
  decide

/-- C6 amended: in the worker's conditional (non-forced) flush, the flush
body runs exactly when STRICTLY more than `QUEUED_EVENTS_FLUSH_INTERVAL`
(10) seconds have elapsed since the last flush or the number of writes since
the last flush STRICTLY exceeds `QUEUED_EVENTS_FLUSH_COUNT` (50), i.e. from
the 51st write; a forced flush bypasses both thresholds; when neither
condition holds a non-forced `flush_queued_events` is a no-op. -/
theorem C6_flush_condition_characterization (elapsed : ℚ) (n : Nat) :
    (flush_condition false elapsed n = true ↔
      (elapsed > QUEUED_EVENTS_FLUSH_INTERVAL ∨ n > QUEUED_EVENTS_FLUSH_COUNT)) ∧
    flush_condition true elapsed n = true ∧
    (∀ (w : LogProcessingWorker) (transportOk : Bool),
      w.non_flushed_event_count = n →
      flush_condition false elapsed n = false →
      flush_queued_events w false elapsed transportOk = w) := by
  refine ⟨?_, ?_, ?_⟩
  · simp [flush_condition, queued_event_interval_reached, queued_event_count_reached]
  · simp [flush_condition]
  · intro w transportOk hn hc
    rw [flush_queued_events, hn, hc]
    simp

/-- C6 amended, witness: at 11 elapsed seconds the condition holds, at 10
seconds and 50 writes a non-forced flush call leaves a concrete worker state
unchanged. -/
theorem C6_flush_condition_witness :
    flush_queued_events
      { buffer := MemoryCache.init none none, stats := LogStats.init,
        non_flushed_event_count := 50 } false 10 false =
      { buffer := MemoryCache.init none none, stats := LogStats.init,
        non_flushed_event_count := 50 } :=
  (C6_flush_condition_characterization 10 50).2.2
    { buffer := MemoryCache.init none none, stats := LogStats.init,
      non_flushed_event_count := 50 } false rfl (by decide)

/-- C4 counterexample: an exception raised by the lazy worker start — one of
the three steps the claim covers — propagates out of `emit`: the call to
`_start_worker_thread` happens before the `try` block, so with the handler
enabled and a generic exception from the worker start, `emit` raises instead
of delegating to `handleError`. -/
theorem C4_counterexample_start_worker_raises :
    AsynchronousLogHandler.emit true (some PyExc.other) none none =
      EmitOutcome.raised PyExc.other := by
  decide

/-- C4 amended: provided the lazy worker start raises nothing (it runs
before the `try` block, so its exceptions propagate), `emit` never
propagates any exception other than `KeyboardInterrupt`/`SystemExit`: a
non-interrupt exception raised during formatting or enqueueing is caught and
delegated to the host's `handleError`, and the interrupt exceptions are
re-raised. -/
theorem C4_emit_exception_handling :
    (∀ (enable : Bool) (fr enq : Option PyExc) (e : PyExc),
      AsynchronousLogHandler.emit enable none fr enq = EmitOutcome.raised e →
      e = PyExc.keyboardInterrupt ∨ e = PyExc.systemExit) ∧
    (∀ (enq : Option PyExc) (e : PyExc),
      e ≠ PyExc.keyboardInterrupt → e ≠ PyExc.systemExit →
      AsynchronousLogHandler.emit true none (some e) enq = EmitOutcome.handledError) ∧
    (∀ e : PyExc, e ≠ PyExc.keyboardInterrupt → e ≠ PyExc.systemExit →
      AsynchronousLogHandler.emit true none none (some e) = EmitOutcome.handledError) := by
  decide

/-- C4 amended, witness: a generic exception in the format step of an
enabled handler with a quiet worker start is delegated to `handleError`. -/
theorem C4_emit_exception_handling_witness :
    AsynchronousLogHandler.emit true none (some PyExc.other) none =
      EmitOutcome.handledError :=
  C4_emit_exception_handling.2.1 none PyExc.other (by decide) (by decide)

/-- After `MemoryCache.get_queued_events`, every cache entry is in-flight. -/
theorem mem_get_marks_all (c : MemoryCache) :
    ∀ x ∈ (c.get_queued_events).1.cache, x.pending_delete = true := by
  intro x hx
  simp only [MemoryCache.get_queued_events] at hx
  rcases List.mem_map.mp hx with ⟨y, hy, rfl⟩
  rfl

/-- Setting `pending_delete` to 1 via `updRow` leaves a row in-flight iff it
was already in-flight or its id was targeted. -/
theorem updRow_true_pending (ids : List Nat) (r : DbRow) :
    (updRow true ids r).pending_delete = (r.pending_delete || ids.contains r.event_id) := by
  unfold updRow
  by_cases h : r.event_id ∈ ids <;> simp [List.elem_iff, h]

/-- After `DatabaseCache.get_queued_events`, every table row is in-flight. -/
theorem db_get_marks_all (c : DatabaseCache) :
    ∀ r ∈ (c.get_queued_events).1.table, r.pending_delete = true := by
  intro r hr
  simp only [DatabaseCache.get_queued_events, bulk_update_events_fst] at hr
  rcases List.mem_map.mp hr with ⟨r0, hr0, rfl⟩
  rw [updRow_true_pending]
  by_cases hp : r0.pending_delete = true
  · simp [hp]
  · have hmem : r0.event_id ∈ ((c.table.filter (fun r => !r.pending_delete)).map
        (fun r => (r.event_id, r.event_text))).map Prod.fst := by
      simp only [List.map_map]
      exact List.mem_map.mpr ⟨r0, List.mem_filter.mpr ⟨hr0, by simp [hp]⟩, rfl⟩
    have hp2 : r0.pending_delete = false := Bool.eq_false_iff.mpr hp
    rw [hp2, Bool.false_or]
    exact List.elem_iff.mpr hmem

/-- C7: for both buffer variants and every buffer state, a second
`get_queued_events` with no intervening requeue returns the empty list —
the first call left every stored event in-flight, and the fetch only selects
events whose `pending_delete` is unset. -/
theorem C7_get_queued_events_idempotent :
    (∀ c : MemoryCache, ((c.get_queued_events).1.get_queued_events).2 = []) ∧
    (∀ c : DatabaseCache, ((c.get_queued_events).1.get_queued_events).2 = []) := by
  constructor
  · intro c
    have hnil : ((c.get_queued_events).1.cache).filter (fun x => !x.pending_delete) = [] :=
      List.filter_eq_nil_iff.mpr (fun x hx => by simp [mem_get_marks_all c x hx])
    conv_lhs => rw [MemoryCache.get_queued_events]
    rw [hnil]
    rfl
  · intro c
    have hnil : ((c.get_queued_events).1.table).filter (fun r => !r.pending_delete) = [] :=
      List.filter_eq_nil_iff.mpr (fun r hr => by simp [db_get_marks_all c r hr])
    conv_lhs => rw [DatabaseCache.get_queued_events]
    rw [hnil]
    rfl

/-- C1 counterexample: a durable buffer file holding one event that was
in-flight at crash time (`pending_delete = 1`); after reopening,
`get_queued_events` returns the empty list — not the previously in-flight
event — because nothing on open reverts `pending_delete`. -/
theorem C1_counterexample_no_revert_on_open :
    ((DatabaseCache.openDb [{ event_id := 1, event_text := "a", pending_delete := true }]
        2 none none).get_queued_events).2 = [] ∧
    ((DatabaseCache.openDb [{ event_id := 1, event_text := "a", pending_delete := true }]
        2 none none).get_queued_events).2 ≠ [(1, "a")] := by
  decide

/-- C1 amended: opening the durable buffer leaves every event's
`pending_delete` flag unchanged (the schema statements only create missing
objects), so after a crash between `get_queued_events` and
`delete_queued_events` a subsequent open followed by `get_queued_events`
returns exactly the events that were buffered (`pending_delete = 0`) at
crash time, while every previously in-flight event stays, unchanged and
in-flight, in the table and is not returned. -/
theorem C1_open_preserves_inflight (rows : List DbRow) (nid : Nat)
    (ttl ms : Option Nat) :
    ((DatabaseCache.openDb rows nid ttl ms).get_queued_events).2 =
      (rows.filter (fun r => !r.pending_delete)).map (fun r => (r.event_id, r.event_text)) ∧
    (∀ r ∈ rows, r.pending_delete = true →
      r ∈ ((DatabaseCache.openDb rows nid ttl ms).get_queued_events).1.table) := by
  constructor
  · rfl
  · intro r hr hp
    simp only [DatabaseCache.get_queued_events, bulk_update_events_fst, DatabaseCache.openDb]
    refine List.mem_map.mpr ⟨r, hr, ?_⟩
    unfold updRow
    by_cases hc :
        (((rows.filter (fun r => !r.pending_delete)).map
          (fun r => (r.event_id, r.event_text))).map Prod.fst).contains r.event_id <;>
      (cases r; simp_all)

/-- C1 amended, witness: the concrete crashed buffer above keeps its
in-flight row across open and fetch. -/
theorem C1_open_preserves_inflight_witness :
    ({ event_id := 1, event_text := "a", pending_delete := true } : DbRow) ∈
      ((DatabaseCache.openDb [{ event_id := 1, event_text := "a", pending_delete := true }]
        2 none none).get_queued_events).1.table :=
  (C1_open_preserves_inflight
      [{ event_id := 1, event_text := "a", pending_delete := true }] 2 none none).2
    { event_id := 1, event_text := "a", pending_delete := true } (by decide) (by decide)

/-- C2: evaluates the flush path at the failing input — one buffered event
"a" and a transport whose `send` succeeds, flush forced.  The claim says
`sent_total` is incremented by the batch size (here 1) and the batch
deleted; in the code `_send_events` reaches `self._stats.sent(len(events))`
after the successful send, `WorkerStats`/`LogStats` define no attribute
`sent` (the method is `send`), the resulting `AttributeError` is caught by
the send-failure handler, and the batch is requeued: `sent_total` stays 0
and the event is back in buffered state. -/
theorem C2_sent_total_never_incremented :
    (flush_queued_events
      { buffer := { cache := [{ id := 0, event_text := "a", pending_delete := false }],
                    event_ttl := none, max_size := none,
                    stats := LogStats.init, nextId := 1 },
        stats := LogStats.init, non_flushed_event_count := 0 } true 0 true).stats.sent_total
      = 0 ∧
    (flush_queued_events
      { buffer := { cache := [{ id := 0, event_text := "a", pending_delete := false }],
                    event_ttl := none, max_size := none,
                    stats := LogStats.init, nextId := 1 },
        stats := LogStats.init, non_flushed_event_count := 0 } true 0 true).buffer.cache
      = [{ id := 0, event_text := "a", pending_delete := false }] := by
  constructor
  · decide
  · decide

/-- C3: evaluates both variants at the decisive inputs.  Durable side, the
failing input: `DatabaseCache` with `max_size` set (here 1), a single
`add_event` — the claim says the event is inserted or discarded with
`overflow_fn` invoked, returning normally; the code raises `AttributeError`
because `self._stats.totalBuffered()` does not exist on
`DatabaseStats`/`LogStats`.  Volatile side: with `max_size = 2`, after
`2 + 3` adds (no drains) through a raising `overflow_fn`, the cache holds 2
events, `discarded_total` is 3, and `overflow_fn` was invoked exactly 3
times (its exceptions swallowed), exactly as the claim states. -/
theorem C3_overflow_policy :
    ((DatabaseCache.openDb [] 1 none (some 1)).add_event "x" =
      Except.error PyExc.attributeError) ∧
    (let f : Option (String → Except PyExc Unit) := some (fun _ => Except.error PyExc.other)
     let c0 := MemoryCache.init none (some 2)
     let a1 := c0.add_event f "e1"
     let a2 := a1.1.add_event f "e2"
     let a3 := a2.1.add_event f "e3"
     let a4 := a3.1.add_event f "e4"
     let a5 := a4.1.add_event f "e5"
     a5.1.cache.length = 2 ∧
     a5.1.stats.discarded_total = 3 ∧
     (a1.2 ++ a2.2 ++ a3.2 ++ a4.2 ++ a5.2).length = 3 ∧
     a1.2 ++ a2.2 ++ a3.2 ++ a4.2 ++ a5.2 = ["e3", "e4", "e5"]) := by
  refine ⟨by rfl, by decide, by decide, by decide, by decide⟩

/-- C8: starting from an empty buffer of either variant (default handler
construction: no max_size, no TTL), `add_event(e); get_queued_events() → L;
requeue_queued_events(L); get_queued_events()` returns exactly `L` again,
with the same payload `e`. -/
theorem C8_add_get_requeue_get_roundtrip (e : String) :
    (let c0 := MemoryCache.init none none
     let a := c0.add_event none e
     let g1 := a.1.get_queued_events
     let rq := g1.1.requeue_queued_events g1.2
     let g2 := rq.1.get_queued_events
     g2.2 = g1.2 ∧ g1.2.map MemEvent.event_text = [e]) ∧
    ((DatabaseCache.openDb [] 1 none none).add_event e =
      Except.ok { table := [{ event_id := 1, event_text := e, pending_delete := false }],
                  next_id := 2, event_ttl := none, max_size := none,
                  stats := { events_total := 1, discarded_total := 0,
                             buffered_events := 1, sent_total := 0 } }) ∧
    (let d1 : DatabaseCache :=
      { table := [{ event_id := 1, event_text := e, pending_delete := false }],
        next_id := 2, event_ttl := none, max_size := none,
        stats := { events_total := 1, discarded_total := 0,
                   buffered_events := 1, sent_total := 0 } }
     let g1 := d1.get_queued_events
     let rq := g1.1.requeue_queued_events g1.2
     let g2 := rq.get_queued_events
     g2.2 = g1.2 ∧ g1.2.map Prod.snd = [e]) := by
  refine ⟨?_, ?_, ?_⟩
  · simp [MemoryCache.init, MemoryCache.add_event, MemoryCache.get_queued_events,
      MemoryCache.requeue_queued_events, MemoryCache.requeueLoop]
  · simp [DatabaseCache.openDb, DatabaseCache.add_event, LogStats.init, LogStats.event,
      LogStats.buffer]
  · simp [DatabaseCache.get_queued_events, DatabaseCache.requeue_queued_events,
      bulk_update_events, ichunked, ichunkedGo, applyChunks, DATABASE_EVENT_CHUNK_SIZE,
      LogStats.unbuffer, LogStats.buffer]

/-- Abbreviation for the single-id update performed by one found iteration of
the volatile requeue loop. -/
def memSetOne (i : Nat) (x : MemEvent) : MemEvent :=
  if x.id = i then { x with pending_delete := false } else x

/-- Abbreviation for the cumulative effect of the volatile requeue loop on
one cache entry: clear `pending_delete` iff the entry's id occurs among the
given events' ids. -/
def memSetList (ids : List Nat) (x : MemEvent) : MemEvent :=
  if ids.contains x.id then { x with pending_delete := false } else x

/-- A single-id update keeps the entry's id. -/
theorem memSetOne_id (i : Nat) (x : MemEvent) : (memSetOne i x).id = x.id := by
  unfold memSetOne
  by_cases h : x.id = i <;> simp [h]

/-- Composing a single-id update with a list update amounts to consing the
id onto the list. -/
theorem memSetList_step (i : Nat) (rest : List Nat) (x : MemEvent) :
    memSetList rest (memSetOne i x) = memSetList (i :: rest) x := by
  unfold memSetOne memSetList
  by_cases hx : x.id = i
  · by_cases hr : x.id ∈ rest <;>
      simp [hx, List.elem_iff, hr]
  · by_cases hr : x.id ∈ rest <;>
      simp [hx, List.elem_iff, hr]

/-- Single-id updates do not change the multiset of ids of a cache. -/
theorem map_id_memSetOne (i : Nat) (cache : List MemEvent) :
    (cache.map (memSetOne i)).map MemEvent.id = cache.map MemEvent.id := by
  rw [List.map_map]
  exact List.map_congr_left (fun x _ => memSetOne_id i x)

/-- Closed form of the volatile requeue loop: the resulting cache clears
`pending_delete` on exactly the entries whose id occurs among the given
events, the count is the number of given events whose id is present in the
cache (present events count whether in-flight or already buffered), and the
warned ids are those of the absent events, in order. -/
theorem requeueLoop_spec (events : List MemEvent) : ∀ cache : List MemEvent,
    MemoryCache.requeueLoop cache events =
      (cache.map (memSetList (events.map MemEvent.id)),
       (events.filter (fun e => (cache.map MemEvent.id).contains e.id)).length,
       (events.filter (fun e => !(cache.map MemEvent.id).contains e.id)).map MemEvent.id) := by
  induction events with
  | nil =>
    intro cache
    have hid : memSetList ([] : List Nat) = id := by
      funext x
      simp [memSetList]
    simp [MemoryCache.requeueLoop, hid]
  | cons ev rest ih =>
    intro cache
    have hone : (fun x : MemEvent =>
        if x.id = ev.id then { x with pending_delete := false } else x) = memSetOne ev.id :=
      rfl
    by_cases hc : (cache.map MemEvent.id).contains ev.id = true
    · simp only [MemoryCache.requeueLoop, hc, if_true, hone, ih,
        map_id_memSetOne, List.filter_cons, Bool.not_true, Prod.mk.injEq]
      refine ⟨?_, ?_, ?_⟩
      · rw [List.map_map]
        exact List.map_congr_left (fun x _ => memSetList_step ev.id (rest.map MemEvent.id) x)
      · simp
      · simp
    · have hc2 : (cache.map MemEvent.id).contains ev.id = false := Bool.eq_false_iff.mpr hc
      simp only [MemoryCache.requeueLoop, hc2, Bool.false_eq_true, if_false, ih,
        List.filter_cons, Bool.not_false, Prod.mk.injEq]
      refine ⟨?_, ?_, ?_⟩
      · refine List.map_congr_left ?_
        intro x hx
        have hxid : x.id ≠ ev.id := by
          intro he
          apply hc
          exact List.elem_iff.mpr (he ▸ List.mem_map_of_mem MemEvent.id hx)
        unfold memSetList
        by_cases hr : x.id ∈ rest.map MemEvent.id <;>
          simp [List.elem_iff, hr, hxid]
      · simp [hc2]
      · simp [hc2]

/-- C5 counterexample: a volatile buffer holding one event that exists and
is already buffered (`pending_delete = false`, gauge at 1); requeueing that
event increments the buffered gauge to 2 even though zero events were
returned from in-flight to buffered — the loop counts any event found in the
cache, not only in-flight ones. -/
theorem C5_counterexample_gauge_counts_buffered_events :
    (({ cache := [{ id := 0, event_text := "a", pending_delete := false }],
        event_ttl := none, max_size := none,
        stats := { events_total := 1, discarded_total := 0,
                   buffered_events := 1, sent_total := 0 },
        nextId := 1 } : MemoryCache).requeue_queued_events
      [{ id := 0, event_text := "a", pending_delete := false }]).1.stats.buffered_events
      = 2 ∧
    ({ id := 0, event_text := "a", pending_delete := false } : MemEvent).pending_delete
      = false := by
  constructor
  · decide
  · decide

/-- C5 amended: for both buffer variants, `requeue_queued_events` returns
every given event that exists in the buffer to buffered state, and the
buffered gauge is incremented by the number of given events whose id exists
in the buffer — counting an event that was already buffered as well, not
only the in-flight ones.  Unknown ids are tolerated: the volatile variant
logs a warning for each (in order), the durable variant's UPDATE simply
matches no row and no warning is logged. -/
theorem C5_requeue_effects (c : MemoryCache) (events : List MemEvent)
    (d : DatabaseCache) (devs : List (Nat × String))
    (hnd : (devs.map Prod.fst).Nodup) :
    ((c.requeue_queued_events events).1.cache =
        c.cache.map (memSetList (events.map MemEvent.id)) ∧
      (c.requeue_queued_events events).1.stats.buffered_events =
        c.stats.buffered_events +
          (events.filter (fun e => (c.cache.map MemEvent.id).contains e.id)).length ∧
      (c.requeue_queued_events events).2 =
        (events.filter (fun e => !(c.cache.map MemEvent.id).contains e.id)).map
          MemEvent.id) ∧
    ((d.requeue_queued_events devs).table =
        d.table.map (updRow false (devs.map Prod.fst)) ∧
      (d.requeue_queued_events devs).stats.buffered_events =
        d.stats.buffered_events +
          d.table.countP (fun r => (devs.map Prod.fst).contains r.event_id)) := by
  constructor
  · simp [MemoryCache.requeue_queued_events, requeueLoop_spec, LogStats.buffer]
  · constructor
    · simp only [DatabaseCache.requeue_queued_events, bulk_update_events_fst]
    · simp only [DatabaseCache.requeue_queued_events]
      rw [bulk_update_events_snd false d.table (devs.map Prod.fst) hnd]
      generalize d.table.countP (fun r => (devs.map Prod.fst).contains r.event_id) = m
      by_cases hpos : m > 0
      · rw [if_pos hpos]
        simp [LogStats.buffer]
      · rw [if_neg hpos]
        have h0 : m = 0 := by omega
        rw [h0]
        simp

/-- C5 amended, witness: requeueing one in-flight event into a durable
buffer with one matching in-flight row raises the buffered gauge by exactly
one. -/
theorem C5_requeue_effects_witness :
    ((DatabaseCache.openDb [{ event_id := 1, event_text := "a", pending_delete := true }]
        2 none none).requeue_queued_events [(1, "a")]).stats.buffered_events = 1 := by
  have h := (C5_requeue_effects (MemoryCache.init none none) []
    (DatabaseCache.openDb [{ event_id := 1, event_text := "a", pending_delete := true }]
      2 none none) [(1, "a")] (by decide)).2.2
  rw [h]
  decide

/-- On a cache with unique ids, popping the first entry with a given id is
the same as filtering that id out. -/
theorem eraseP_id_eq_filter (i : Nat) :
    ∀ cache : List MemEvent, (cache.map MemEvent.id).Nodup →
      cache.eraseP (fun x => x.id = i) = cache.filter (fun x => !(decide (x.id = i))) := by
  intro cache
  induction cache with
  | nil => intro h; rfl
  | cons y t ih =>
    intro h
    have hparts : y.id ∉ t.map MemEvent.id ∧ (t.map MemEvent.id).Nodup := by
      rw [List.map_cons, List.nodup_cons] at h
      exact h
    by_cases hy : y.id = i
    · have hpy : decide (y.id = i) = true := decide_eq_true hy
      simp only [List.eraseP_cons, hpy, cond_true, List.filter_cons, Bool.not_true,
        Bool.false_eq_true, if_false]
      symm
      refine List.filter_eq_self.mpr ?_
      intro x hx
      have hne : x.id ≠ i := fun he => hparts.1 (hy ▸ he ▸ List.mem_map_of_mem MemEvent.id hx)
      simpa using hne
    · have hpy : decide (y.id = i) = false := decide_eq_false hy
      simp only [List.eraseP_cons, hpy, cond_false, List.filter_cons, Bool.not_false,
        if_true, ih hparts.2]

/-- Closed form of the volatile delete loop when the cache has unique ids,
the requested ids are duplicate-free and all present: exactly the entries
with a requested id are removed, all are counted, and nothing is warned. -/
theorem deleteLoop_spec (ids : List Nat) :
    ∀ cache : List MemEvent, (cache.map MemEvent.id).Nodup → ids.Nodup →
      (∀ i ∈ ids, i ∈ cache.map MemEvent.id) →
      MemoryCache.deleteLoop cache ids =
        (cache.filter (fun x => !ids.contains x.id), ids.length, []) := by
  induction ids with
  | nil =>
    intro cache h1 h2 h3
    simp [MemoryCache.deleteLoop]
  | cons i rest ih =>
    intro cache h1 h2 h3
    have hc : (cache.map MemEvent.id).contains i = true :=
      List.elem_iff.mpr (h3 i (by simp))
    have herase := eraseP_id_eq_filter i cache h1
    have h1f : ((cache.filter (fun x => !(decide (x.id = i)))).map MemEvent.id).Nodup :=
      ((List.filter_sublist cache).map MemEvent.id).nodup h1
    have hrest := List.nodup_cons.mp h2
    have h3f : ∀ j ∈ rest,
        j ∈ (cache.filter (fun x => !(decide (x.id = i)))).map MemEvent.id := by
      intro j hj
      have hjc : j ∈ cache.map MemEvent.id := h3 j (by simp [hj])
      rcases List.mem_map.mp hjc with ⟨x, hx, rfl⟩
      have hji : x.id ≠ i := by
        intro he
        exact hrest.1 (he ▸ hj)
      exact List.mem_map_of_mem MemEvent.id (List.mem_filter.mpr ⟨hx, by simpa using hji⟩)
    simp only [MemoryCache.deleteLoop, hc, if_true, herase,
      ih _ h1f hrest.2 h3f, Prod.mk.injEq]
    refine ⟨?_, by simp, by simp⟩
    rw [List.filter_filter]
    refine List.filter_congr ?_
    intro x hx
    by_cases hxi : x.id = i <;> by_cases hxr : x.id ∈ rest <;>
      simp [List.elem_iff, hxi, hxr]

/-- Closed form of `MemoryCache.delete_queued_events` on a cache with unique
ids: exactly the in-flight entries are removed (and counted as discarded),
the buffered entries are untouched, and no warning is logged. -/
theorem mem_delete_queued_spec (c : MemoryCache)
    (hnd : (c.cache.map MemEvent.id).Nodup) :
    c.delete_queued_events =
      ({ c with cache := c.cache.filter (fun x => !x.pending_delete),
                stats := c.stats.discard
                  ((c.cache.filter (fun x => x.pending_delete)).map MemEvent.id).length },
       []) := by
  unfold MemoryCache.delete_queued_events MemoryCache.delete_events
  have hids_nodup : ((c.cache.filter (fun e => e.pending_delete)).map MemEvent.id).Nodup :=
    ((List.filter_sublist c.cache).map MemEvent.id).nodup hnd
  have hpresent : ∀ i ∈ (c.cache.filter (fun e => e.pending_delete)).map MemEvent.id,
      i ∈ c.cache.map MemEvent.id := by
    intro i hi
    rcases List.mem_map.mp hi with ⟨x, hx, rfl⟩
    exact List.mem_map_of_mem MemEvent.id (List.mem_filter.mp hx).1
  rw [deleteLoop_spec _ _ hnd hids_nodup hpresent]
  have hfeq : c.cache.filter
      (fun x => !((c.cache.filter (fun e => e.pending_delete)).map MemEvent.id).contains x.id)
      = c.cache.filter (fun x => !x.pending_delete) := by
    refine List.filter_congr ?_
    intro x hx
    by_cases hp : x.pending_delete = true
    · have : x.id ∈ (c.cache.filter (fun e => e.pending_delete)).map MemEvent.id :=
        List.mem_map_of_mem MemEvent.id (List.mem_filter.mpr ⟨hx, by simpa using hp⟩)
      simp [List.elem_iff, this, hp]
    · have hp2 : x.pending_delete = false := Bool.eq_false_iff.mpr hp
      have hnotin : x.id ∉ (c.cache.filter (fun e => e.pending_delete)).map MemEvent.id := by
        intro hmem
        rcases List.mem_map.mp hmem with ⟨y, hy, hyx⟩
        have hxy : y = x :=
          List.inj_on_of_nodup_map hnd (List.mem_filter.mp hy).1 hx hyx
        have : y.pending_delete = true := by simpa using (List.mem_filter.mp hy).2
        rw [hxy, hp2] at this
        cases this
      simp [List.elem_iff, hnotin, hp2]
  rw [hfeq]

/-- C9: for both buffer variants, `delete_queued_events` removes exactly the
in-flight events and leaves every buffered event unchanged; in particular an
`add_event(e)` followed by `delete_queued_events` with no intervening
`get_queued_events` leaves the newly inserted event in the buffer.  (For the
volatile variant the cache is assumed to have unique ids with `nextId`
fresh, which holds for every state the buffer's own API can reach; the
durable table needs no assumption.) -/
theorem C9_delete_removes_only_inflight (c : MemoryCache) (d : DatabaseCache)
    (ofn : Option (String → Except PyExc Unit)) (e : String)
    (hnd : (c.cache.map MemEvent.id).Nodup)
    (hfresh : ∀ x ∈ c.cache, x.id ≠ c.nextId)
    (hms : c.max_size = none) :
    ((c.delete_queued_events).1.cache = c.cache.filter (fun x => !x.pending_delete)) ∧
    ((c.delete_queued_events).2 = []) ∧
    ((d.delete_queued_events).table = d.table.filter (fun r => !r.pending_delete)) ∧
    (((c.add_event ofn e).1.delete_queued_events).1.cache =
      c.cache.filter (fun x => !x.pending_delete) ++
        [{ id := c.nextId, event_text := e, pending_delete := false }]) ∧
    (∀ d2 : DatabaseCache, d.add_event e = Except.ok d2 →
      (d2.delete_queued_events).table =
        d.table.filter (fun r => !r.pending_delete) ++
          [{ event_id := d.next_id, event_text := e, pending_delete := false }]) := by
  refine ⟨?_, ?_, ?_, ?_, ?_⟩
  · rw [mem_delete_queued_spec c hnd]
  · rw [mem_delete_queued_spec c hnd]
  · rfl
  · have hcache : (c.add_event ofn e).1.cache =
        c.cache ++ [{ id := c.nextId, event_text := e, pending_delete := false }] := by
      simp [MemoryCache.add_event, hms]
    have hnd2 : ((c.add_event ofn e).1.cache.map MemEvent.id).Nodup := by
      rw [hcache, List.map_append, List.nodup_append]
      refine ⟨hnd, by simp, ?_⟩
      intro a ha hb
      rcases List.mem_map.mp ha with ⟨x, hx, rfl⟩
      simp only [List.map_cons, List.map_nil, List.mem_singleton] at hb
      exact (hfresh x hx) hb
    rw [mem_delete_queued_spec _ hnd2, hcache, List.filter_append]
    simp
  · intro d2 hadd
    rcases hms2 : d.max_size with _ | m
    · have hok : d2 = DatabaseCache.mk
          (d.table ++ [{ event_id := d.next_id, event_text := e, pending_delete := false }])
          (d.next_id + 1) d.event_ttl none ((d.stats.event 1).buffer 1) := by
        unfold DatabaseCache.add_event at hadd
        rw [hms2] at hadd
        simpa using hadd.symm
      rw [hok]
      unfold DatabaseCache.delete_queued_events
      simp [List.filter_append]
    · exfalso
      unfold DatabaseCache.add_event at hadd
      rw [hms2] at hadd
      cases hadd

/-- C9 witness: a concrete volatile buffer with one buffered and one
in-flight entry keeps exactly the buffered one after delete. -/
theorem C9_delete_removes_only_inflight_witness :
    (({ cache := [{ id := 0, event_text := "a", pending_delete := false },
                  { id := 1, event_text := "b", pending_delete := true }],
        event_ttl := none, max_size := none, stats := LogStats.init,
        nextId := 2 } : MemoryCache).delete_queued_events).1.cache =
      [{ id := 0, event_text := "a", pending_delete := false }] := by
  have h := (C9_delete_removes_only_inflight
    { cache := [{ id := 0, event_text := "a", pending_delete := false },
                { id := 1, event_text := "b", pending_delete := true }],
      event_ttl := none, max_size := none, stats := LogStats.init, nextId := 2 }
    (DatabaseCache.openDb [] 1 none none) none "w"
    (by decide) (by decide) rfl).1
  rw [h]
  decide
